import Mathlib

/-
Verification of the VendoTrash backend core against its design spec.

Shallow embedding of:
  * Server/services/vision_service.py   (_process_labels label classifier)
  * Server/controllers/vendo_controller.py (classify_trash_image points and ledger)
  * Server/services/session_service.py  (Redis session gate and detection history)

Confidence scores are modelled as exact rationals; Python sets of words are
modelled as lists of words with membership tests (duplicates are irrelevant
because the code only tests membership and subset inclusion).  Label names
contain no whitespace other than single spaces, so Python str.split() is
modelled by splitting on a space and dropping empty pieces.
-/

namespace VendoTrash

inductive Material where
  | PLASTIC
  | NON_PLASTIC
  | REJECTED
deriving DecidableEq, Repr

structure Verdict where
  material : Material
  confidence : ℚ
deriving DecidableEq, Repr

/-- vision_service.py lines 15-23: ACCEPTED_LABELS. -/
def ACCEPTED_LABELS : List String :=
  [ "plastic bottle", "water bottle", "soda bottle", "drink bottle",
    "bottled water", "drinking water",
    "aluminum can", "tin can", "soda can", "beer can", "drink can",
    "steel and tin cans", "soft drink can" ]

/-- vision_service.py lines 26-47: REJECTED_LABELS. -/
def REJECTED_LABELS : List String :=
  [ "glass", "glass bottle", "wine bottle", "beer bottle", "glass container",
    "jar", "glass jar", "ceramic", "porcelain",
    "container", "drinkware", "beverage", "drink",
    "bottle",
    "can",
    "flashlight", "torch", "light", "lamp", "electronic device", "device",
    "battery", "metal scrap",
    "bin", "trash can", "garbage can", "wastebasket",
    "bag", "plastic bag", "paper bag",
    "box", "cardboard box",
    "cup", "mug", "coffee cup",
    "food", "fruit", "vegetable",
    "book", "paper", "newspaper" ]

/-- Split a character stream at spaces, dropping empty pieces; the second
argument accumulates the current word reversed. -/
def wordsAux : List Char → List Char → List String
  | [], cur => if cur.isEmpty then [] else [String.mk cur.reverse]
  | c :: rest, cur =>
    if c = ' ' then
      if cur.isEmpty then wordsAux rest []
      else String.mk cur.reverse :: wordsAux rest []
    else wordsAux rest (c :: cur)

/-- Python str.split(): split on whitespace, dropping empty pieces. -/
def splitWords (s : String) : List String :=
  wordsAux s.toList []

/-- Python str.lower() for the ASCII label names. -/
def lowerString (s : String) : String :=
  String.mk (s.toList.map Char.toLower)

/-- Whether the first character list is a leading segment of the second. -/
def listPrefixOf : List Char → List Char → Bool
  | [], _ => true
  | _ :: _, [] => false
  | a :: as, b :: bs => a == b && listPrefixOf as bs

/-- Whether the needle occurs somewhere in the haystack. -/
def substrAux (n : List Char) : List Char → Bool
  | [] => n.isEmpty
  | c :: rest => listPrefixOf n (c :: rest) || substrAux n rest

/-- Python substring test: needle in hay. -/
def isSubstr (needle hay : String) : Bool :=
  substrAux needle.toList hay.toList

/-- Python str.startswith. -/
def strStartsWith (s pre : String) : Bool :=
  listPrefixOf pre.toList s.toList

/-- Python str.endswith. -/
def strEndsWith (s suf : String) : Bool :=
  listPrefixOf suf.toList.reverse s.toList.reverse

/-- One entry of all_labels_info (vision_service.py lines 136-144). -/
structure LabelInfo where
  name : String
  name_lower : String
  wds : List String
  confidence : ℚ
deriving DecidableEq, Repr

/-- Build the all_labels_info entry for one (description, score) label. -/
def mkInfo (p : String × ℚ) : LabelInfo :=
  { name := p.1
    name_lower := lowerString p.1
    wds := splitWords (lowerString p.1)
    confidence := p.2 }

/-- vision_service.py line 147. -/
def has_bottle_context (infos : List LabelInfo) : Bool :=
  infos.any fun i =>
    i.wds.contains "bottle" || i.wds.contains "water" ||
    i.wds.contains "soda" || i.wds.contains "drink"

/-- vision_service.py line 148. -/
def has_can_context (infos : List LabelInfo) : Bool :=
  infos.any fun i =>
    i.wds.contains "can" || i.wds.contains "aluminum" ||
    i.wds.contains "tin" || i.wds.contains "steel"

/-- vision_service.py line 149. -/
def has_plastic_context (infos : List LabelInfo) : Bool :=
  infos.any fun i => i.wds.contains "plastic"

/-- vision_service.py line 150. -/
def has_glass_context (infos : List LabelInfo) : Bool :=
  infos.any fun i => i.wds.contains "glass" || i.wds.contains "jar"

/-- vision_service.py line 151. -/
def has_transparency (infos : List LabelInfo) : Bool :=
  infos.any fun i => i.wds.contains "transparency" || i.wds.contains "transparent"

/-- vision_service.py line 152. -/
def has_silver_metallic (infos : List LabelInfo) : Bool :=
  infos.any fun i => i.wds.contains "silver" || i.wds.contains "metallic"

/-- First pass over ACCEPTED_LABELS (lines 163-172): stops at the first
phrase whose word set is a subset of the label words or which is a substring
of the label name; the payload records is_explicitly_accepted. -/
def firstAcceptMatch (lw : List String) (nm : String) : List String → Option Bool
  | [] => none
  | a :: rest =>
    if ((splitWords a).all fun w => lw.contains w) || isSubstr a nm then
      some (a == nm || isSubstr a nm || isSubstr nm a)
    else firstAcceptMatch lw nm rest

/-- is_accepted after the first pass (line 163-172). -/
def first_pass_accepted (info : LabelInfo) : Bool :=
  (firstAcceptMatch info.wds info.name_lower ACCEPTED_LABELS).isSome

/-- is_explicitly_accepted (lines 164-171). -/
def is_explicitly_accepted (info : LabelInfo) : Bool :=
  match firstAcceptMatch info.wds info.name_lower ACCEPTED_LABELS with
  | some b => b
  | none => false

/-- Bottle demotion in the re-validation block (line 185). -/
def demote_bottle (w : List String) : Bool :=
  w.contains "bottle" && !w.contains "plastic" &&
  !w.contains "water" && !w.contains "soda" && !w.contains "drink"

/-- Can demotion in the re-validation block (line 189). -/
def demote_can (w : List String) : Bool :=
  w.contains "can" &&
  !(w.contains "aluminum" || w.contains "tin" || w.contains "steel") &&
  !w.contains "soda" && !w.contains "beer" && !w.contains "drink"

/-- is_accepted after the re-validation block (lines 174-190): explicit
matches skip the strict validation. -/
def accepted_after_revalidation (info : LabelInfo) : Bool :=
  first_pass_accepted info &&
    (is_explicitly_accepted info ||
      (!demote_bottle info.wds && !demote_can info.wds))

/-- Context-aware promotion of a bare "plastic" label (lines 192-198).
The inner any() skips entries equal to this label (dict inequality). -/
def promoted_bare_plastic (infos : List LabelInfo) (info : LabelInfo) : Bool :=
  !accepted_after_revalidation info &&
  info.name_lower == "plastic" &&
  has_bottle_context infos && !has_glass_context infos &&
  infos.any fun o =>
    decide (o ≠ info) && (o.wds.contains "water" || o.wds.contains "bottle")

/-- is_accepted entering the rejection block (after promotion). -/
def pre_override_accepted (infos : List LabelInfo) (info : LabelInfo) : Bool :=
  accepted_after_revalidation info || promoted_bare_plastic infos info

/-- All single words appearing in any REJECTED_LABELS phrase (lines 203-205). -/
def rejectedWords : List String :=
  (REJECTED_LABELS.map splitWords).flatten

/-- The rejection block, entered only when not accepted (lines 200-229). -/
def reject_check (infos : List LabelInfo) (info : LabelInfo) : Bool :=
  let w := info.wds
  let nm := info.name_lower
  let r1 := rejectedWords.any fun rw => w.contains rw
  let r2 := w.contains "glass" || w.contains "jar"
  let r3 := (nm == "bottle" ||
      (strStartsWith nm "bottle " && !w.contains "plastic" && !w.contains "water" &&
        !w.contains "soda" && !w.contains "drink")) &&
    !has_plastic_context infos
  let r4 := nm == "can" ||
    (strEndsWith nm " can" && !w.contains "aluminum" && !w.contains "tin" &&
      !w.contains "soda" && !w.contains "beer" && !w.contains "drink" &&
      !w.contains "steel")
  let r5 := nm == "plastic" && !has_bottle_context infos && !has_can_context infos
  let r6 := nm == "container" || nm == "drinkware" || nm == "beverage" || nm == "drink"
  r1 || r2 || r3 || r4 || r5 || r6

/-- The final glass override (lines 236-240): labels bearing glass or jar are
forced to rejected unless explicitly accepted or excused by
transparency-plus-bottle context. -/
def glass_override (infos : List LabelInfo) (info : LabelInfo) : Bool :=
  (info.wds.contains "glass" || info.wds.contains "jar") &&
  !is_explicitly_accepted info &&
  !(has_transparency infos && has_bottle_context infos)

/-- is_rejected at the classification branch (line 242). -/
def label_rejected (infos : List LabelInfo) (info : LabelInfo) : Bool :=
  (!pre_override_accepted infos info && reject_check infos info) ||
    glass_override infos info

/-- is_accepted at the classification branch (line 248). -/
def label_accepted (infos : List LabelInfo) (info : LabelInfo) : Bool :=
  pre_override_accepted infos info && !glass_override infos info

inductive Outcome where
  | accepted
  | rejected
  | unknown
deriving DecidableEq, Repr

/-- Which of the three item lists the label lands in (lines 242-290),
including the defensive re-checks inside the accepted branch (lines 249-284). -/
def label_outcome (infos : List LabelInfo) (info : LabelInfo) : Outcome :=
  if label_rejected infos info then .rejected
  else if label_accepted infos info then
    if !info.wds.contains "glass" && !info.wds.contains "jar" then
      if info.name_lower == "bottle" || info.name_lower == "can" then
        if (info.name_lower == "bottle" && has_plastic_context infos) ||
            (info.name_lower == "can" && has_can_context infos) then
          .accepted
        else .rejected
      else if !(info.name_lower == "container" || info.name_lower == "drinkware" ||
          info.name_lower == "beverage" || info.name_lower == "drink") then
        .accepted
      else .rejected
    else .rejected
  else .unknown

/-- The name stored for an accepted item: the promotion rewrites the
description (line 198). -/
def label_desc (infos : List LabelInfo) (info : LabelInfo) : String :=
  if promoted_bare_plastic infos info then
    "Plastic bottle (from: Plastic + context)"
  else info.name

/-- accepted_items after the per-label loop (name, confidence pairs). -/
def acceptedItems (infos : List LabelInfo) : List (String × ℚ) :=
  infos.filterMap fun i =>
    if label_outcome infos i == .accepted then
      some (label_desc infos i, i.confidence)
    else none

/-- Python max(list, key) : first element attaining the maximum, as an
Option so that the empty-list case (where Python raises) is visible. -/
def pyMaxBy {α : Type} (f : α → ℚ) : List α → Option α
  | [] => none
  | x :: xs => some (xs.foldl (fun b a => if f b < f a then a else b) x)

/-- Material choice from the best accepted item name (lines 305-312). -/
def bestMaterial (nm : String) : Material :=
  let n := lowerString nm
  if isSubstr "bottle" n && !isSubstr "glass" n then .PLASTIC
  else if isSubstr "can" n then .NON_PLASTIC
  else .PLASTIC

/-- The whole of _process_labels (vision_service.py lines 124-359):
classify a label set into a verdict.  Returns none exactly where the Python
code would raise (a max() over an empty list); totality is proved below. -/
def process_labels (labels : List (String × ℚ)) : Option Verdict :=
  let infos := labels.map mkInfo
  let accepted_items := acceptedItems infos
  if accepted_items.isEmpty then
    if has_transparency infos && has_bottle_context infos then
      match pyMaxBy (fun i => i.confidence) infos with
      | none => none
      | some b => some ⟨.PLASTIC, b.confidence * 0.7⟩
    else if has_glass_context infos && has_transparency infos then
      match pyMaxBy (fun i => i.confidence) infos with
      | none => none
      | some b => some ⟨.PLASTIC, b.confidence * 0.65⟩
    else if has_silver_metallic infos && has_can_context infos &&
        !has_glass_context infos then
      match pyMaxBy (fun i => i.confidence) infos with
      | none => none
      | some b => some ⟨.NON_PLASTIC, b.confidence * 0.7⟩
    else
      some ⟨.REJECTED, 0⟩
  else
    match pyMaxBy (fun x => x.2) accepted_items with
    | none => none
    | some best => some ⟨bestMaterial best.1, best.2⟩

/-- The confidence of the single highest-confidence entry of a label set
(0 for the empty set, where the fallback never reads it). -/
def maxConf : List LabelInfo → ℚ
  | [] => 0
  | x :: xs => xs.foldl (fun m i => max m i.confidence) x.confidence

/-- The largest value of f over a non-empty list (0 for the empty list). -/
def listMaxQ {α : Type} (f : α → ℚ) : List α → ℚ
  | [] => 0
  | x :: xs => xs.foldl (fun m a => max m (f a)) (f x)

/-- The fallback rules exactly as the spec words them: priority order
(a) transparency and bottle context, (b) glass context and transparency,
(c) silver-metallic and can context without glass context, (d) rejected;
each discount applies to the highest confidence of the full label set. -/
def fallbackClaim (infos : List LabelInfo) : Verdict :=
  if has_transparency infos && has_bottle_context infos then
    ⟨.PLASTIC, maxConf infos * 0.7⟩
  else if has_glass_context infos && has_transparency infos then
    ⟨.PLASTIC, maxConf infos * 0.65⟩
  else if has_silver_metallic infos && has_can_context infos &&
      !has_glass_context infos then
    ⟨.NON_PLASTIC, maxConf infos * 0.7⟩
  else
    ⟨.REJECTED, 0⟩

/-- The material the spec assigns to the best accepted label name. -/
def claimMaterial (nm : String) : Material :=
  bestMaterial nm

/-! ## Transaction creation (vendo_controller.py classify_trash_image) -/

/-- One row of the transaction ledger (models Transaction plus the points
it carries); the id models the generated UUID as the row index. -/
structure LedgerTx where
  id : Nat
  user_id : Nat
  machine_id : Nat
  material_type : Material
  points_earned : Nat
deriving DecidableEq, Repr

/-- The response dict built by classify_trash_image. -/
structure ClassifyResult where
  status : String
  material_type : Material
  confidence : ℚ
  points_earned : Nat
  transaction_id : Option Nat
deriving DecidableEq, Repr

/-- transaction_controller.create_transaction: persist one new ledger row
carrying the given points; returns the stored row. -/
def create_transaction (user_id machine_id : Nat) (material : Material)
    (points : Nat) (ledger : List LedgerTx) : LedgerTx × List LedgerTx :=
  let tx : LedgerTx := ⟨ledger.length, user_id, machine_id, material, points⟩
  (tx, ledger ++ [tx])

/-- vendo_controller.py lines 237-274: the post-classification step of
classify_trash_image, from the verdict on.  REJECTED creates no
transaction; PLASTIC earns 2 points, anything else 1. -/
def classify_trash_image (v : Verdict) (user_id machine_id : Nat)
    (ledger : List LedgerTx) : ClassifyResult × List LedgerTx :=
  if v.material = .REJECTED then
    (⟨"rejected", .REJECTED, v.confidence, 0, none⟩, ledger)
  else
    let points := if v.material = .PLASTIC then 2 else 1
    let (tx, ledger2) := create_transaction user_id machine_id v.material points ledger
    (⟨"success", v.material, v.confidence, points, some tx.id⟩, ledger2)

/-! ## Redis session gate and detection history (session_service.py) -/

/-- session_service.py line 15. -/
def SESSION_TTL : Nat := 600

/-- session_service.py line 18. -/
def MAX_DETECTION_HISTORY : Nat := 5

/-- The JSON payload stored under a session key (lines 39-44). -/
structure SessionData where
  token : String
  user_id : Nat
  created_at : Nat
  expires_at : Nat
deriving DecidableEq, Repr

/-- One entry of the per-user detection history. -/
structure Detection where
  material_type : Material
  confidence : ℚ
  points_earned : Nat
  timestamp : Nat
deriving DecidableEq, Repr

/-- Redis keys used by the service: session:u and detection_history:u. -/
inductive RKey where
  | session (user_id : Nat)
  | history (user_id : Nat)
deriving DecidableEq, Repr

/-- Values stored under those keys (decoded from their JSON encodings). -/
inductive RVal where
  | sess (d : SessionData)
  | hist (l : List Detection)
deriving DecidableEq, Repr

/-- One live Redis entry; expireAt none models a key without TTL. -/
structure REntry where
  key : RKey
  val : RVal
  expireAt : Option Nat
deriving DecidableEq, Repr

/-- A Redis database: entries with at most one live entry per key,
maintained by the write operations below. -/
abbrev RedisStore : Type := List REntry

/-- Redis GET at an instant: an entry past its TTL reads as absent. -/
def redisGet (now : Nat) (s : RedisStore) (k : RKey) : Option RVal :=
  match s.find? (fun e => e.key == k) with
  | some e =>
    match e.expireAt with
    | none => some e.val
    | some t => if now < t then some e.val else none
  | none => none

/-- Redis SETEX: store a value under a key with a TTL, superseding any
previous entry for the key. -/
def redisSetex (now ttl : Nat) (k : RKey) (v : RVal) (s : RedisStore) : RedisStore :=
  ⟨k, v, some (now + ttl)⟩ :: s.filter (fun e => !(e.key == k))

/-- Redis SET without expiration, superseding any previous entry. -/
def redisSet (k : RKey) (v : RVal) (s : RedisStore) : RedisStore :=
  ⟨k, v, none⟩ :: s.filter (fun e => !(e.key == k))

/-- Redis DEL: returns how many live keys were removed (an expired key
counts as already absent). -/
def redisDelete (now : Nat) (k : RKey) (s : RedisStore) : Nat × RedisStore :=
  ((if (redisGet now s k).isSome then 1 else 0),
    s.filter (fun e => !(e.key == k)))

/-- The connection the service sees: get_redis_client may return no client
(unavailable), the client may raise on every operation (failing, caught by
every service function), or it is healthy with a current database. -/
inductive RedisConn where
  | unavailable
  | failing
  | healthy (store : RedisStore)
deriving DecidableEq, Repr

/-- session_service.create_session (lines 21-57): SETEX the session JSON
under session:user_id with the fixed TTL; False when Redis is absent or
the operation raises. -/
def create_session (conn : RedisConn) (now : Nat) (user_id : Nat)
    (token : String) : Bool × RedisConn :=
  match conn with
  | .unavailable => (false, conn)
  | .failing => (false, conn)
  | .healthy s =>
    let data : SessionData := ⟨token, user_id, now, now + SESSION_TTL⟩
    (true, .healthy (redisSetex now SESSION_TTL (.session user_id) (.sess data) s))

/-- session_service.get_session (lines 60-83). -/
def get_session (conn : RedisConn) (now : Nat) (user_id : Nat) : Option SessionData :=
  match conn with
  | .unavailable => none
  | .failing => none
  | .healthy s =>
    match redisGet now s (.session user_id) with
    | some (.sess d) => some d
    | _ => none

/-- session_service.is_session_active (lines 86-102). -/
def is_session_active (conn : RedisConn) (now : Nat) (user_id : Nat) : Bool :=
  match conn with
  | .unavailable => false
  | _ => (get_session conn now user_id).isSome

/-- session_service.end_session (lines 118-145): DEL the session key and
report whether a live session was removed. -/
def end_session (conn : RedisConn) (now : Nat) (user_id : Nat) : Bool × RedisConn :=
  match conn with
  | .unavailable => (false, conn)
  | .failing => (false, conn)
  | .healthy s =>
    let (deleted, s2) := redisDelete now (.session user_id) s
    (deleted > 0, .healthy s2)

/-- The timestamp assignment of line 175: the stored entry carries the
insertion time. -/
def stampDetection (now : Nat) (d : Detection) : Detection :=
  { d with timestamp := now }

/-- session_service.add_detection_to_history (lines 148-188): prepend the
stamped entry to the current history and keep the 5 most recent, stored
without TTL. -/
def add_detection_to_history (conn : RedisConn) (now : Nat) (user_id : Nat)
    (d : Detection) : Bool × RedisConn :=
  match conn with
  | .unavailable => (false, conn)
  | .failing => (false, conn)
  | .healthy s =>
    let history :=
      match redisGet now s (.history user_id) with
      | some (.hist l) => l
      | _ => []
    let h2 := (stampDetection now d :: history).take MAX_DETECTION_HISTORY
    (true, .healthy (redisSet (.history user_id) (.hist h2) s))

/-- session_service.get_detection_history (lines 191-214). -/
def get_detection_history (conn : RedisConn) (now : Nat) (user_id : Nat) :
    List Detection :=
  match conn with
  | .unavailable => []
  | .failing => []
  | .healthy s =>
    match redisGet now s (.history user_id) with
    | some (.hist l) => l
    | _ => []

/-- A whole sequence of history appends, oldest first, each with its own
insertion time. -/
def runAdds (user_id : Nat) (ds : List (Nat × Detection)) (conn : RedisConn) :
    RedisConn :=
  ds.foldl (fun c p => (add_detection_to_history c p.1 user_id p.2).2) conn

/-! ## Helper lemmas -/

theorem any_ne_nil {α : Type} (p : α → Bool) (l : List α) (h : l.any p = true) :
    l ≠ [] := by
  intro hnil
  rw [hnil] at h
  simp at h

theorem le_foldl_maxQ {α : Type} (f : α → ℚ) :
    ∀ (t : List α) (b : ℚ), b ≤ t.foldl (fun m a => max m (f a)) b := by
  intro t
  induction t with
  | nil => intro b; exact le_refl b
  | cons c t ih =>
    intro b
    simp only [List.foldl_cons]
    exact le_trans (le_max_left b (f c)) (ih (max b (f c)))

theorem f_pick_eq_max {α : Type} (f : α → ℚ) (x a : α) :
    f (if f x < f a then a else x) = max (f x) (f a) := by
  by_cases h : f x < f a
  · rw [if_pos h, max_eq_right h.le]
  · rw [if_neg h, max_eq_left (not_lt.mp h)]

theorem foldl_pick_eq_max {α : Type} (f : α → ℚ) :
    ∀ (xs : List α) (x : α),
      f (xs.foldl (fun b a => if f b < f a then a else b) x) =
        xs.foldl (fun m a => max m (f a)) (f x) := by
  intro xs
  induction xs with
  | nil => intro x; rfl
  | cons a t ih =>
    intro x
    simp only [List.foldl_cons]
    rw [ih]
    rw [f_pick_eq_max f x a]

theorem findFirstMax_eq_pyMaxBy {α : Type} (f : α → ℚ) :
    ∀ (xs : List α) (x : α),
      (x :: xs).find? (fun a => decide (f a = listMaxQ f (x :: xs))) =
        some (xs.foldl (fun b a => if f b < f a then a else b) x) := by
  intro xs
  induction xs with
  | nil =>
    intro x
    simp [listMaxQ]
  | cons a t ih =>
    intro x
    by_cases h : f x < f a
    · have hM : listMaxQ f (x :: a :: t) = listMaxQ f (a :: t) := by
        simp [listMaxQ, List.foldl_cons, max_eq_right h.le]
      have hle : f a ≤ listMaxQ f (a :: t) := le_foldl_maxQ f t (f a)
      have hxM : ¬(f x = listMaxQ f (x :: a :: t)) := by
        rw [hM]
        exact ne_of_lt (lt_of_lt_of_le h hle)
      rw [List.find?_cons_of_neg _ (by simpa using hxM)]
      rw [show ((a :: t).foldl (fun b a => if f b < f a then a else b) x) =
          (t.foldl (fun b a => if f b < f a then a else b) a) by
        simp [List.foldl_cons, if_pos h]]
      calc (a :: t).find? (fun b => decide (f b = listMaxQ f (x :: a :: t)))
          = (a :: t).find? (fun b => decide (f b = listMaxQ f (a :: t))) := by rw [hM]
        _ = some (t.foldl (fun b a => if f b < f a then a else b) a) := ih a
    · have hM : listMaxQ f (x :: a :: t) = listMaxQ f (x :: t) := by
        simp [listMaxQ, List.foldl_cons, max_eq_left (not_lt.mp h)]
      have hfold : ((a :: t).foldl (fun b a => if f b < f a then a else b) x) =
          (t.foldl (fun b a => if f b < f a then a else b) x) := by
        simp [List.foldl_cons, if_neg h]
      by_cases hx : f x = listMaxQ f (x :: a :: t)
      · have h1 : (x :: t).find? (fun b => decide (f b = listMaxQ f (x :: t))) =
            some x :=
          List.find?_cons_of_pos _ (by simp [← hM, hx])
        have h2 : x = t.foldl (fun b a => if f b < f a then a else b) x := by
          have := (ih x).symm.trans h1
          exact (Option.some.injEq _ _).mp this.symm
        rw [List.find?_cons_of_pos _ (by simp [hx])]
        rw [hfold, ← h2]
      · have hxlt : f x < listMaxQ f (x :: t) := by
          have hle : f x ≤ listMaxQ f (x :: t) := le_foldl_maxQ f t (f x)
          rw [hM] at hx
          exact lt_of_le_of_ne hle hx
        have haM : ¬(f a = listMaxQ f (x :: a :: t)) := by
          rw [hM]
          exact ne_of_lt (lt_of_le_of_lt (not_lt.mp h) hxlt)
        have hxM : ¬(f x = listMaxQ f (x :: a :: t)) := hx
        rw [List.find?_cons_of_neg _ (by simpa using hxM)]
        rw [List.find?_cons_of_neg _ (by simpa using haM)]
        have h3 := ih x
        rw [List.find?_cons_of_neg _
          (by simp; rw [← hM]; simpa using hxM)] at h3
        rw [hfold]
        calc t.find? (fun b => decide (f b = listMaxQ f (x :: a :: t)))
            = t.find? (fun b => decide (f b = listMaxQ f (x :: t))) := by rw [hM]
          _ = some (t.foldl (fun b a => if f b < f a then a else b) x) := h3

theorem pyMaxBy_spec {α : Type} (f : α → ℚ) (l : List α) (h : l ≠ []) :
    ∃ b, pyMaxBy f l = some b ∧
      l.find? (fun a => decide (f a = listMaxQ f l)) = some b ∧
      f b = listMaxQ f l := by
  match l with
  | x :: xs =>
    exact ⟨_, rfl, findFirstMax_eq_pyMaxBy f xs x, foldl_pick_eq_max f xs x⟩

theorem maxConf_eq_listMaxQ (infos : List LabelInfo) :
    maxConf infos = listMaxQ (fun i => i.confidence) infos := by
  cases infos <;> rfl

/-! ## Claim theorems -/

/-- C6: the classifier is total: for every well-formed label set, including
the empty one, _process_labels returns a verdict without raising; every
max() over a label list is reached only on a non-empty list (modelled by
pyMaxBy never being consulted at none). -/
theorem c6_classifier_total (labels : List (String × ℚ)) :
    (process_labels labels).isSome = true := by
  simp only [process_labels]
  cases hacc : acceptedItems (labels.map mkInfo) with
  | nil =>
    simp only [List.isEmpty_nil, if_true]
    split_ifs with h1 h2 h3
    · have hne : labels.map mkInfo ≠ [] :=
        any_ne_nil _ _ (Bool.and_elim_left h1)
      obtain ⟨b, hb, -, -⟩ := pyMaxBy_spec (fun i => i.confidence) _ hne
      rw [hb]
      rfl
    · have hne : labels.map mkInfo ≠ [] :=
        any_ne_nil _ _ (Bool.and_elim_left h2)
      obtain ⟨b, hb, -, -⟩ := pyMaxBy_spec (fun i => i.confidence) _ hne
      rw [hb]
      rfl
    · have hne : labels.map mkInfo ≠ [] :=
        any_ne_nil _ _ (Bool.and_elim_left (Bool.and_elim_left h3))
      obtain ⟨b, hb, -, -⟩ := pyMaxBy_spec (fun i => i.confidence) _ hne
      rw [hb]
      rfl
    · rfl
  | cons y ys =>
    simp [pyMaxBy]

/-- C1: when no label is accepted, the verdict follows the fallback rules
in priority order, each discounting the confidence of the single
highest-confidence label of the full set: (a) transparency and bottle
context gives PLASTIC at 0.70, (b) glass context and transparency gives
PLASTIC at 0.65, (c) silver-metallic and can context without glass context
gives NON_PLASTIC at 0.70, (d) otherwise REJECTED at 0.0; in particular the
empty label set classifies as REJECTED at 0.0. -/
theorem c1_fallback_rules (labels : List (String × ℚ))
    (h : acceptedItems (labels.map mkInfo) = []) :
    process_labels labels = some (fallbackClaim (labels.map mkInfo)) ∧
    process_labels [] = some ⟨.REJECTED, 0⟩ := by
  constructor
  · simp only [process_labels, fallbackClaim]
    rw [h]
    simp only [List.isEmpty_nil, if_true]
    split_ifs with h1 h2 h3
    · have hne : labels.map mkInfo ≠ [] :=
        any_ne_nil _ _ (Bool.and_elim_left h1)
      obtain ⟨b, hb, -, hconf⟩ := pyMaxBy_spec (fun i => i.confidence) _ hne
      rw [hb, maxConf_eq_listMaxQ, ← hconf]
    · have hne : labels.map mkInfo ≠ [] :=
        any_ne_nil _ _ (Bool.and_elim_left h2)
      obtain ⟨b, hb, -, hconf⟩ := pyMaxBy_spec (fun i => i.confidence) _ hne
      rw [hb, maxConf_eq_listMaxQ, ← hconf]
    · have hne : labels.map mkInfo ≠ [] :=
        any_ne_nil _ _ (Bool.and_elim_left (Bool.and_elim_left h3))
      obtain ⟨b, hb, -, hconf⟩ := pyMaxBy_spec (fun i => i.confidence) _ hne
      rw [hb, maxConf_eq_listMaxQ, ← hconf]
    · rfl
  · rfl

/-- C1 witness: the one-label set glass at 0.9 has no accepted label, and
the theorem applies to it (the fallback yields REJECTED at 0.0 there). -/
theorem c1_fallback_rules_witness :
    acceptedItems ([("glass", (9:ℚ)/10)].map mkInfo) = [] ∧
    (process_labels [("glass", (9:ℚ)/10)] =
        some (fallbackClaim ([("glass", (9:ℚ)/10)].map mkInfo)) ∧
      process_labels [] = some ⟨.REJECTED, 0⟩) :=
  ⟨by decide, c1_fallback_rules [("glass", (9:ℚ)/10)] (by decide)⟩

unseal Rat.mul Rat.inv Rat.ofScientific in
/-- C2 counterexample: on the set glass 0.9, transparency 0.85 the claimed
verdict confidence 0.85 × 0.65 = 0.5525 is wrong: the code discounts the
highest confidence of the full set (the glass label at 0.9). -/
theorem c2_fallback_confidence_counterexample :
    process_labels [("glass", (9:ℚ)/10), ("transparency", (17:ℚ)/20)] ≠
      some ⟨.PLASTIC, 0.5525⟩ := by
  decide

unseal Rat.mul Rat.inv Rat.ofScientific in
/-- C2 amended: the set glass 0.9, transparency 0.85 classifies through
fallback rule (b) as PLASTIC at 0.9 × 0.65 = 0.585, the discount applying to
the single highest-confidence label of the full set (glass at 0.9), not to
the transparency label. -/
theorem c2_fallback_confidence :
    process_labels [("glass", (9:ℚ)/10), ("transparency", (17:ℚ)/20)] =
      some ⟨.PLASTIC, (0.9 : ℚ) * 0.65⟩ ∧
    (0.9 : ℚ) * 0.65 = 0.585 := by
  constructor
  · decide
  · decide

/-- C3: a label whose word set bears glass or jar and which is not an
exact or near-exact accepted-phrase match lands among the rejected items
whenever the set-wide context does not show both transparency and bottle
context. -/
theorem c3_glass_forced_reject (labels : List (String × ℚ)) (info : LabelInfo)
    (_hmem : info ∈ labels.map mkInfo)
    (h2 : (info.wds.contains "glass" || info.wds.contains "jar") = true)
    (h3 : is_explicitly_accepted info = false)
    (h4 : (has_transparency (labels.map mkInfo) &&
        has_bottle_context (labels.map mkInfo)) = false) :
    label_outcome (labels.map mkInfo) info = .rejected := by
  have hov : glass_override (labels.map mkInfo) info = true := by
    unfold glass_override
    rw [h2, h3, h4]
    rfl
  unfold label_outcome label_rejected
  rw [hov]
  simp

unseal Rat.mul Rat.inv Rat.ofScientific in
/-- C3 witness: the glass label of the one-label set glass at 0.9. -/
theorem c3_glass_forced_reject_witness :
    mkInfo ("glass", (9:ℚ)/10) ∈ [("glass", (9:ℚ)/10)].map mkInfo ∧
    label_outcome ([("glass", (9:ℚ)/10)].map mkInfo)
      (mkInfo ("glass", (9:ℚ)/10)) = .rejected :=
  ⟨by decide,
    c3_glass_forced_reject [("glass", (9:ℚ)/10)] (mkInfo ("glass", (9:ℚ)/10))
      (by decide) (by decide) (by decide) (by decide)⟩

unseal Rat.mul Rat.inv Rat.ofScientific in
/-- C4: with at least one accepted label the verdict comes from the first
accepted item attaining the highest confidence; its name decides the
material (bottle without glass is PLASTIC, else can is NON_PLASTIC, else
PLASTIC) and its own undiscounted confidence is the verdict confidence; in
particular aluminum can 0.77 gives NON_PLASTIC 0.77 and glass 0.9,
transparency 0.8, plastic bottle 0.6 gives PLASTIC 0.6. -/
theorem c4_accepted_resolution (labels : List (String × ℚ))
    (h : acceptedItems (labels.map mkInfo) ≠ []) :
    (∃ best,
      (acceptedItems (labels.map mkInfo)).find?
          (fun x => decide (x.2 = listMaxQ (fun y => y.2)
            (acceptedItems (labels.map mkInfo)))) = some best ∧
      process_labels labels = some ⟨bestMaterial best.1, best.2⟩) ∧
    process_labels [("aluminum can", (77:ℚ)/100)] =
      some ⟨.NON_PLASTIC, (77:ℚ)/100⟩ ∧
    process_labels [("glass", (9:ℚ)/10), ("transparency", (4:ℚ)/5),
        ("plastic bottle", (3:ℚ)/5)] = some ⟨.PLASTIC, (3:ℚ)/5⟩ := by
  refine ⟨?_, by decide, by decide⟩
  obtain ⟨b, hpy, hfind, -⟩ := pyMaxBy_spec (fun x : String × ℚ => x.2) _ h
  refine ⟨b, hfind, ?_⟩
  simp only [process_labels]
  have hne : (acceptedItems (labels.map mkInfo)).isEmpty = false := by
    cases hacc : acceptedItems (labels.map mkInfo) with
    | nil => exact absurd hacc h
    | cons y ys => rfl
  rw [hne]
  simp only [Bool.false_eq_true, if_false]
  rw [hpy]

unseal Rat.mul Rat.inv Rat.ofScientific in
/-- C4 witness: the one-label set aluminum can at 0.77 has an accepted
label, and the theorem applies to it. -/
theorem c4_accepted_resolution_witness :
    acceptedItems ([("aluminum can", (77:ℚ)/100)].map mkInfo) ≠ [] ∧
    ((∃ best,
      (acceptedItems ([("aluminum can", (77:ℚ)/100)].map mkInfo)).find?
          (fun x => decide (x.2 = listMaxQ (fun y => y.2)
            (acceptedItems ([("aluminum can", (77:ℚ)/100)].map mkInfo)))) =
        some best ∧
      process_labels [("aluminum can", (77:ℚ)/100)] =
        some ⟨bestMaterial best.1, best.2⟩) ∧
    process_labels [("aluminum can", (77:ℚ)/100)] =
      some ⟨.NON_PLASTIC, (77:ℚ)/100⟩ ∧
    process_labels [("glass", (9:ℚ)/10), ("transparency", (4:ℚ)/5),
        ("plastic bottle", (3:ℚ)/5)] = some ⟨.PLASTIC, (3:ℚ)/5⟩) :=
  ⟨by decide, c4_accepted_resolution [("aluminum can", (77:ℚ)/100)] (by decide)⟩

unseal Rat.mul Rat.inv Rat.ofScientific in
/-- C5 counterexample: in the set plastic 0.9, soda 0.8 the bottle context
holds (soda) and the glass context does not, yet the bare plastic label is
not promoted: it lands among the rejected items, because the promotion also
requires another label bearing the word water or bottle. -/
theorem c5_bare_plastic_counterexample :
    has_bottle_context ([("plastic", (9:ℚ)/10), ("soda", (4:ℚ)/5)].map mkInfo)
        = true ∧
    has_glass_context ([("plastic", (9:ℚ)/10), ("soda", (4:ℚ)/5)].map mkInfo)
        = false ∧
    (mkInfo ("plastic", (9:ℚ)/10)).name_lower = "plastic" ∧
    mkInfo ("plastic", (9:ℚ)/10) ∈
      [("plastic", (9:ℚ)/10), ("soda", (4:ℚ)/5)].map mkInfo ∧
    promoted_bare_plastic
      ([("plastic", (9:ℚ)/10), ("soda", (4:ℚ)/5)].map mkInfo)
      (mkInfo ("plastic", (9:ℚ)/10)) = false ∧
    label_outcome ([("plastic", (9:ℚ)/10), ("soda", (4:ℚ)/5)].map mkInfo)
      (mkInfo ("plastic", (9:ℚ)/10)) = .rejected := by
  refine ⟨by decide, by decide, by decide, by decide, by decide, by decide⟩

/-- C5 amended: a label whose lower-cased name is exactly plastic is
promoted to accepted when the set shows bottle context, no glass context,
and additionally some other label of the set bears the word water or the
word bottle; the promoted label then lands among the accepted items. -/
theorem c5_bare_plastic_promotion (labels : List (String × ℚ)) (p : String × ℚ)
    (_hmem : p ∈ labels)
    (h2 : lowerString p.1 = "plastic")
    (h3 : has_bottle_context (labels.map mkInfo) = true)
    (h4 : has_glass_context (labels.map mkInfo) = false)
    (h5 : (labels.map mkInfo).any (fun o =>
        decide (o ≠ mkInfo p) &&
        (o.wds.contains "water" || o.wds.contains "bottle")) = true) :
    promoted_bare_plastic (labels.map mkInfo) (mkInfo p) = true ∧
    label_outcome (labels.map mkInfo) (mkInfo p) = .accepted := by
  have hnl : (mkInfo p).name_lower = "plastic" := h2
  have hw : (mkInfo p).wds = ["plastic"] := by
    show splitWords (lowerString p.1) = ["plastic"]
    rw [h2]
    rfl
  have hrev : accepted_after_revalidation (mkInfo p) = false := by
    unfold accepted_after_revalidation first_pass_accepted
    rw [hw, hnl]
    rfl
  have hprom : promoted_bare_plastic (labels.map mkInfo) (mkInfo p) = true := by
    unfold promoted_bare_plastic
    rw [hrev, hnl, h3, h4, h5]
    rfl
  have hpre : pre_override_accepted (labels.map mkInfo) (mkInfo p) = true := by
    unfold pre_override_accepted
    rw [hrev, hprom]
    rfl
  have hov : glass_override (labels.map mkInfo) (mkInfo p) = false := by
    unfold glass_override
    rw [hw]
    rfl
  have hrej : label_rejected (labels.map mkInfo) (mkInfo p) = false := by
    unfold label_rejected
    rw [hpre, hov]
    rfl
  have hacc : label_accepted (labels.map mkInfo) (mkInfo p) = true := by
    unfold label_accepted
    rw [hpre, hov]
    rfl
  refine ⟨hprom, ?_⟩
  unfold label_outcome
  rw [hrej, hacc, hw, hnl]
  rfl

unseal Rat.mul Rat.inv Rat.ofScientific in
/-- C5 amended witness: in the set plastic 0.9, bottled water 0.8 the bare
plastic label is promoted and accepted. -/
theorem c5_bare_plastic_promotion_witness :
    ("plastic", (9:ℚ)/10) ∈ [("plastic", (9:ℚ)/10), ("bottled water", (4:ℚ)/5)] ∧
    (promoted_bare_plastic
      ([("plastic", (9:ℚ)/10), ("bottled water", (4:ℚ)/5)].map mkInfo)
      (mkInfo ("plastic", (9:ℚ)/10)) = true ∧
    label_outcome ([("plastic", (9:ℚ)/10), ("bottled water", (4:ℚ)/5)].map mkInfo)
      (mkInfo ("plastic", (9:ℚ)/10)) = .accepted) :=
  ⟨by decide,
    c5_bare_plastic_promotion
      [("plastic", (9:ℚ)/10), ("bottled water", (4:ℚ)/5)]
      ("plastic", (9:ℚ)/10)
      (by decide) (by decide) (by decide) (by decide) (by decide)⟩

/-- C7: for every verdict, a PLASTIC classification earns 2 points and a
NON_PLASTIC one earns 1, each appending exactly one ledger row carrying
those points and returning its id; a REJECTED classification earns 0
points, returns no transaction id and leaves the ledger unchanged. -/
theorem c7_points_and_ledger (c : ℚ) (uid mid : Nat) (ledger : List LedgerTx) :
    ((classify_trash_image ⟨.PLASTIC, c⟩ uid mid ledger).1.points_earned = 2 ∧
      (classify_trash_image ⟨.PLASTIC, c⟩ uid mid ledger).2 =
        ledger ++ [⟨ledger.length, uid, mid, .PLASTIC, 2⟩] ∧
      (classify_trash_image ⟨.PLASTIC, c⟩ uid mid ledger).1.transaction_id =
        some ledger.length) ∧
    ((classify_trash_image ⟨.NON_PLASTIC, c⟩ uid mid ledger).1.points_earned = 1 ∧
      (classify_trash_image ⟨.NON_PLASTIC, c⟩ uid mid ledger).2 =
        ledger ++ [⟨ledger.length, uid, mid, .NON_PLASTIC, 1⟩] ∧
      (classify_trash_image ⟨.NON_PLASTIC, c⟩ uid mid ledger).1.transaction_id =
        some ledger.length) ∧
    ((classify_trash_image ⟨.REJECTED, c⟩ uid mid ledger).1.points_earned = 0 ∧
      (classify_trash_image ⟨.REJECTED, c⟩ uid mid ledger).1.transaction_id =
        none ∧
      (classify_trash_image ⟨.REJECTED, c⟩ uid mid ledger).2 = ledger) :=
  ⟨⟨rfl, rfl, rfl⟩, ⟨rfl, rfl, rfl⟩, rfl, rfl, rfl⟩

/-- C10: when Redis is unavailable or every Redis operation raises, each
session-gate and history operation returns its failure default instead of
propagating: create_session and end_session return False, get_session
returns none, is_session_active returns False, and get_detection_history
returns the empty list, for every user and instant. -/
theorem c10_redis_failure_defaults (now u : Nat) (t : String) (d : Detection) :
    create_session .unavailable now u t = (false, .unavailable) ∧
    create_session .failing now u t = (false, .failing) ∧
    end_session .unavailable now u = (false, .unavailable) ∧
    end_session .failing now u = (false, .failing) ∧
    get_session .unavailable now u = none ∧
    get_session .failing now u = none ∧
    is_session_active .unavailable now u = false ∧
    is_session_active .failing now u = false ∧
    get_detection_history .unavailable now u = [] ∧
    get_detection_history .failing now u = [] ∧
    add_detection_to_history .unavailable now u d = (false, .unavailable) ∧
    add_detection_to_history .failing now u d = (false, .failing) :=
  ⟨rfl, rfl, rfl, rfl, rfl, rfl, rfl, rfl, rfl, rfl, rfl, rfl⟩

theorem filter_after_filter_not {α : Type} (p : α → Bool) (l : List α) :
    ((l.filter fun e => !(p e)).filter fun e => p e) = [] := by
  induction l with
  | nil => rfl
  | cons a t ih => cases h : p a <;> simp [List.filter_cons, h, ih]

theorem find_filter_not {α : Type} (p : α → Bool) (l : List α) :
    ((l.filter fun e => !(p e)).find? fun e => p e) = none := by
  induction l with
  | nil => rfl
  | cons a t ih => cases h : p a <;> simp [List.filter_cons, h, ih]

theorem redisGet_setex_same (now now2 ttl : Nat) (k : RKey) (v : RVal)
    (st : RedisStore) :
    redisGet now2 (redisSetex now ttl k v st) k =
      if now2 < now + ttl then some v else none := by
  simp only [redisGet, redisSetex]
  rw [List.find?_cons_of_pos _ (by simp)]

theorem is_active_setex_same (stIn : RedisStore) (now ttl n u : Nat)
    (d : SessionData) :
    is_session_active (.healthy (redisSetex now ttl (.session u) (.sess d) stIn))
        n u = decide (n < now + ttl) := by
  show (get_session
      (.healthy (redisSetex now ttl (.session u) (.sess d) stIn)) n u).isSome = _
  simp only [get_session]
  rw [redisGet_setex_same]
  by_cases hn : n < now + ttl
  · rw [if_pos hn]
    simp [hn]
  · rw [if_neg hn]
    simp [hn]

theorem is_active_after_delete (st : RedisStore) (n m u : Nat) :
    is_session_active ((end_session (.healthy st) n u).2) m u = false := by
  simp only [end_session, redisDelete]
  show (get_session
      (.healthy (st.filter fun e => !(e.key == RKey.session u))) m u).isSome
    = false
  simp only [get_session, redisGet]
  rw [find_filter_not]
  rfl

/-- C8: two prepare calls in a row leave exactly one stored session for the
user, bearing the second token and the second TTL window; the gate reports
the session active at an instant exactly when fewer than TTL seconds have
passed since the second prepare, and never after an end_session. -/
theorem c8_session_lifecycle (s : RedisStore) (now1 now2 u : Nat)
    (t1 t2 : String) :
    let conn2 := (create_session
      ((create_session (.healthy s) now1 u t1).2) now2 u t2).2
    (∃ st, conn2 = .healthy st ∧
      (st.filter fun e => e.key == RKey.session u).length = 1 ∧
      redisGet now2 st (.session u) =
        some (.sess ⟨t2, u, now2, now2 + SESSION_TTL⟩)) ∧
    (∀ n, is_session_active conn2 n u = decide (n < now2 + SESSION_TTL)) ∧
    (∀ n m, is_session_active ((end_session conn2 n u).2) m u = false) := by
  intro conn2
  have hconn : conn2 = .healthy
      (redisSetex now2 SESSION_TTL (.session u)
        (.sess ⟨t2, u, now2, now2 + SESSION_TTL⟩)
        (redisSetex now1 SESSION_TTL (.session u)
          (.sess ⟨t1, u, now1, now1 + SESSION_TTL⟩) s)) := rfl
  refine ⟨⟨_, hconn, ?_, ?_⟩, ?_, ?_⟩
  · simp only [redisSetex, List.filter_cons]
    simp [filter_after_filter_not]
  · rw [redisGet_setex_same]
    rw [if_pos (Nat.lt_add_of_pos_right (by decide))]
  · intro n
    rw [hconn]
    exact is_active_setex_same _ now2 SESSION_TTL n u _
  · intro n m
    rw [hconn]
    exact is_active_after_delete _ n m u

theorem getHist_healthy_set (st : RedisStore) (u : Nat) (l : List Detection)
    (now : Nat) :
    get_detection_history (.healthy (redisSet (.history u) (.hist l) st)) now u
      = l := by
  have hget : redisGet now (redisSet (.history u) (.hist l) st) (.history u) =
      some (.hist l) := by
    simp only [redisGet, redisSet]
    rw [List.find?_cons_of_pos _ (by simp)]
  simp only [get_detection_history]
  rw [hget]

theorem add_hist_healthy (st : RedisStore) (now u : Nat) (d : Detection) :
    (add_detection_to_history (.healthy st) now u d).2 =
      .healthy (redisSet (.history u)
        (.hist ((stampDetection now d ::
          get_detection_history (.healthy st) now u).take MAX_DETECTION_HISTORY))
        st) := by
  simp only [add_detection_to_history, get_detection_history]

theorem runAdds_append_one (u : Nat) (ds : List (Nat × Detection))
    (p : Nat × Detection) (c : RedisConn) :
    runAdds u (ds ++ [p]) c =
      (add_detection_to_history (runAdds u ds c) p.1 u p.2).2 := by
  simp [runAdds, List.foldl_append]

theorem runAdds_spec (u : Nat) (ds : List (Nat × Detection)) :
    ∃ st, runAdds u ds (.healthy []) = .healthy st ∧
      ∀ now, get_detection_history (.healthy st) now u =
        ((ds.map fun p => stampDetection p.1 p.2).reverse).take
          MAX_DETECTION_HISTORY := by
  induction ds using List.reverseRecOn with
  | nil => exact ⟨[], rfl, fun now => rfl⟩
  | append_singleton ds p ih =>
    obtain ⟨st, hst, hget⟩ := ih
    refine ⟨redisSet (.history u)
        (.hist ((stampDetection p.1 p.2 ::
          get_detection_history (.healthy st) p.1 u).take MAX_DETECTION_HISTORY))
        st, ?_, ?_⟩
    · rw [runAdds_append_one, hst, add_hist_healthy]
    · intro now
      rw [getHist_healthy_set, hget p.1, List.map_append, List.reverse_append]
      simp only [List.map_cons, List.map_nil, List.reverse_cons,
        List.reverse_nil, List.nil_append, List.singleton_append,
        MAX_DETECTION_HISTORY, List.take_succ_cons, List.take_take]
      rfl

/-- C9: starting from an empty store, any sequence of history appends
(also six or more) leaves the read history equal to the appended entries
newest first truncated to the five most recent, hence never more than five
entries, and the history reads empty when nothing was ever added. -/
theorem c9_history_ring_buffer (u : Nat) (ds : List (Nat × Detection)) :
    (∀ now, get_detection_history (.healthy []) now u = []) ∧
    (∀ now, get_detection_history (runAdds u ds (.healthy [])) now u =
      ((ds.map fun p => stampDetection p.1 p.2).reverse).take
        MAX_DETECTION_HISTORY) ∧
    (∀ now, (get_detection_history (runAdds u ds (.healthy [])) now u).length ≤
      MAX_DETECTION_HISTORY) := by
  obtain ⟨st, hst, hget⟩ := runAdds_spec u ds
  refine ⟨fun now => rfl, fun now => by rw [hst]; exact hget now, fun now => ?_⟩
  rw [hst, hget now]
  simp only [List.length_take]
  exact min_le_left _ _

end VendoTrash
